import Mathlib

/-!
Verification of `scripts/translate_docs.py`.

The script copies a fixed list of documentation files from a source
directory `docs/` into the subdirectory `docs/en/`, prepending a marker
line to each file and running a (self-inverse) link-rewriting pass.

We shallowly embed the script: file contents are `String`s, the relevant
part of the filesystem is two finite maps (files directly in the source
directory, and files in the destination subdirectory `en/`) together with
a flag recording whether `en/` exists.  Python's `str.replace` is embedded
as a left-to-right, non-overlapping replacement on the character list of
the string.  `print` output is collected as a list of lines.
-/

set_option autoImplicit false

namespace TranslateDocs

/-- Embedding of Python `str.replace` on character lists: scan left to
right; whenever (nonempty) `pat` matches at the current position, emit
`rep` and jump past the match, otherwise emit the current character and
advance by one.  (The script only ever calls this with a nonempty
pattern of the form `"./" ++ f2`.) -/
def listReplace (pat rep : List Char) : List Char → List Char
  | [] => []
  | c :: rest =>
    if h : pat.isPrefixOf (c :: rest) && !pat.isEmpty then
      rep ++ listReplace pat rep ((c :: rest).drop pat.length)
    else
      c :: listReplace pat rep rest
termination_by s => s.length
decreasing_by
  · simp only [Bool.and_eq_true, Bool.not_eq_true'] at h
    have hp : 0 < pat.length := by
      cases pat
      · simp [List.isEmpty] at h
      · simp
    simp only [List.length_drop, List.length_cons]
    omega
  · simp [List.length_cons]

/-- Embedding of Python `str.replace` on strings. -/
def strReplace (s pat rep : String) : String :=
  ⟨listReplace pat.data rep.data s.data⟩

/-- The marker line the script prepends (`fake_translate`). -/
def marker : String :=
  "<!-- TRANSLATED TO ENGLISH (replace with real translation) -->\n"

/-- `fake_translate` from the script: prepend the marker line. -/
def fake_translate (content : String) : String :=
  "<!-- TRANSLATED TO ENGLISH (replace with real translation) -->\n" ++ content

/-- `FILES` from the script: the hard-coded ordered list of filenames. -/
def FILES : List String :=
  [ "OVERVIEW.md",
    "QUICK_START.md",
    "FRONTEND_INTEGRATION.md",
    "INTERMEDIATE_GUIDE.md",
    "EXPERT_GUIDE.md",
    "MIGRATION_V1_V2.md",
    "IMPLEMENTATION_NOTES.md",
    "FAQ.md",
    "CONTRIBUTING.md" ]

/-- The link-adjustment loop of `main`: for every `f2` in `FILES` other
than the file being processed, `translated.replace("./" ++ f2, "./" ++ f2)`. -/
def rewriteLinks (fname : String) (translated : String) : String :=
  FILES.foldl
    (fun t f2 => if f2 ≠ fname then strReplace t ("./" ++ f2) ("./" ++ f2) else t)
    translated

/-- The relevant filesystem state: the files sitting directly in the
source directory `docs/` (by name), the files in the destination
subdirectory `docs/en/` (by name), and whether `en/` exists.  The nine
names in `FILES` are plain filenames (no separators, none equal to
`"en"`), so a write to `en/<f>` never aliases a source file `docs/<f>`. -/
structure FS where
  srcFiles : String → Option String
  dstFiles : String → Option String
  dstDirExists : Bool

/-- One iteration of the loop body of `main` for filename `fname`:
if the source file exists, read it, apply `fake_translate`, run the
link-rewriting loop, write the result to `en/<fname>` and print the
translated notice; otherwise print the missing notice. -/
def step (st : FS × List String) (fname : String) : FS × List String :=
  match st.1.srcFiles fname with
  | some content =>
      let translated := rewriteLinks fname (fake_translate content)
      ({ st.1 with
          dstFiles := fun n => if n = fname then some translated else st.1.dstFiles n },
       st.2 ++ ["Translated " ++ fname ++ " -> en/" ++ fname])
  | none =>
      (st.1, st.2 ++ ["Source file missing: " ++ fname])

/-- `main` from the script: create `en/` (idempotently), then process the
files of `FILES` in order.  Returns the final filesystem state and the
list of printed lines. -/
def main (fs : FS) : FS × List String :=
  FILES.foldl step ({ fs with dstDirExists := true }, [])

/-- The line printed for `fname`, as a function of the source directory. -/
def notice (src : String → Option String) (fname : String) : String :=
  match src fname with
  | some _ => "Translated " ++ fname ++ " -> en/" ++ fname
  | none => "Source file missing: " ++ fname

/-! ### Basic lemmas about `listReplace` -/

theorem listReplace_cons (pat rep : List Char) (c : Char) (rest : List Char) :
    listReplace pat rep (c :: rest) =
      if pat.isPrefixOf (c :: rest) && !pat.isEmpty then
        rep ++ listReplace pat rep ((c :: rest).drop pat.length)
      else
        c :: listReplace pat rep rest := by
  rw [listReplace]
  rw [dite_eq_ite]

theorem listReplace_self_of_le (pat : List Char) :
    ∀ n, ∀ s : List Char, s.length ≤ n → listReplace pat pat s = s := by
  intro n
  induction n with
  | zero =>
    intro s hs
    have : s = [] := List.length_eq_zero.mp (Nat.le_zero.mp hs)
    subst this
    rw [listReplace]
  | succ m ih =>
    intro s hs
    match s with
    | [] => rw [listReplace]
    | c :: rest =>
      rw [listReplace_cons]
      by_cases hcond : pat.isPrefixOf (c :: rest) && !pat.isEmpty
      · rw [if_pos hcond]
        simp only [Bool.and_eq_true, Bool.not_eq_true'] at hcond
        have hpre : pat <+: c :: rest := List.isPrefixOf_iff_prefix.mp hcond.1
        have hp : 0 < pat.length := by
          cases pat
          · simp [List.isEmpty] at hcond
          · simp
        have hrec : listReplace pat pat ((c :: rest).drop pat.length) =
            (c :: rest).drop pat.length := by
          apply ih
          simp only [List.length_drop, List.length_cons] at *
          omega
        rw [hrec]
        calc pat ++ (c :: rest).drop pat.length
            = (c :: rest).take pat.length ++ (c :: rest).drop pat.length := by
              rw [← List.prefix_iff_eq_take.mp hpre]
          _ = c :: rest := List.take_append_drop _ _
      · rw [if_neg hcond]
        have : listReplace pat pat rest = rest := by
          apply ih
          simp only [List.length_cons] at hs
          omega
        rw [this]

/-- Replacing a pattern by itself is the identity. -/
theorem listReplace_self (pat s : List Char) : listReplace pat pat s = s :=
  listReplace_self_of_le pat s.length s (Nat.le_refl _)

/-- `strReplace s pat pat = s`. -/
theorem strReplace_self (s pat : String) : strReplace s pat pat = s := by
  unfold strReplace
  rw [listReplace_self]

/-- The link-rewriting pass is the identity. -/
theorem rewriteLinks_id (fname translated : String) :
    rewriteLinks fname translated = translated := by
  unfold rewriteLinks
  generalize FILES = l
  induction l generalizing translated with
  | nil => rfl
  | cons f2 t ih =>
    simp only [List.foldl_cons]
    by_cases h : f2 ≠ fname
    · rw [if_pos h, strReplace_self, ih]
    · rw [if_neg h, ih]

/-! ### Characterization of `step` and of the loop of `main` -/

theorem step_srcFiles (st : FS × List String) (fname : String) :
    (step st fname).1.srcFiles = st.1.srcFiles := by
  unfold step
  cases st.1.srcFiles fname <;> rfl

theorem step_dstDirExists (st : FS × List String) (fname : String) :
    (step st fname).1.dstDirExists = st.1.dstDirExists := by
  unfold step
  cases st.1.srcFiles fname <;> rfl

theorem step_dstFiles_ne (st : FS × List String) {n fname : String} (h : n ≠ fname) :
    (step st fname).1.dstFiles n = st.1.dstFiles n := by
  unfold step
  cases st.1.srcFiles fname
  · rfl
  · simp [h]

theorem step_dstFiles_eq (st : FS × List String) (fname : String) :
    (step st fname).1.dstFiles fname =
      match st.1.srcFiles fname with
      | some c => some (rewriteLinks fname (fake_translate c))
      | none => st.1.dstFiles fname := by
  unfold step
  cases h : st.1.srcFiles fname
  · rfl
  · simp

theorem step_out (st : FS × List String) (fname : String) :
    (step st fname).2 = st.2 ++ [ notice st.1.srcFiles fname] := by
  unfold step notice
  cases st.1.srcFiles fname <;> rfl

theorem foldl_step_srcFiles (l : List String) :
    ∀ st : FS × List String, ((l.foldl step st).1).srcFiles = st.1.srcFiles := by
  induction l with
  | nil => intro st; rfl
  | cons f t ih =>
    intro st
    simp only [List.foldl_cons]
    rw [ih, step_srcFiles]

theorem foldl_step_dstDirExists (l : List String) :
    ∀ st : FS × List String, ((l.foldl step st).1).dstDirExists = st.1.dstDirExists := by
  induction l with
  | nil => intro st; rfl
  | cons f t ih =>
    intro st
    simp only [List.foldl_cons]
    rw [ih, step_dstDirExists]

theorem foldl_step_out (l : List String) :
    ∀ st : FS × List String,
      (l.foldl step st).2 = st.2 ++ l.map ( notice st.1.srcFiles) := by
  induction l with
  | nil => intro st; simp
  | cons f t ih =>
    intro st
    simp only [List.foldl_cons, List.map_cons]
    rw [ih, step_srcFiles, step_out, List.append_assoc]
    rfl

theorem foldl_step_dstFiles_notMem (l : List String) (n : String) :
    ∀ st : FS × List String, n ∉ l → ((l.foldl step st).1).dstFiles n = st.1.dstFiles n := by
  induction l with
  | nil => intro st _; rfl
  | cons f t ih =>
    intro st h
    simp only [List.foldl_cons]
    have hnf : n ≠ f := fun he => h (he ▸ List.mem_cons_self f t)
    have hnt : n ∉ t := fun he => h (List.mem_cons_of_mem f he)
    rw [ih _ hnt, step_dstFiles_ne st hnf]

theorem foldl_step_dstFiles_mem (l : List String) (n : String) :
    ∀ st : FS × List String, n ∈ l →
      ((l.foldl step st).1).dstFiles n =
        match st.1.srcFiles n with
        | some c => some (rewriteLinks n (fake_translate c))
        | none => st.1.dstFiles n := by
  induction l with
  | nil => intro st h; exact absurd h (List.not_mem_nil n)
  | cons f t ih =>
    intro st h
    simp only [List.foldl_cons]
    by_cases hmem : n ∈ t
    · rw [ih _ hmem, step_srcFiles]
      cases hsrc : st.1.srcFiles n with
      | some c => rfl
      | none =>
        by_cases hnf : n = f
        · subst hnf
          rw [step_dstFiles_eq, hsrc]
        · rw [step_dstFiles_ne st hnf]
    · have hnf : n = f := by
        rcases List.mem_cons.mp h with h1 | h2
        · exact h1
        · exact absurd h2 hmem
      subst hnf
      rw [foldl_step_dstFiles_notMem t n _ hmem, step_dstFiles_eq]

/-! ### Characterization of `main` -/

theorem main_srcFiles (fs : FS) : (main fs).1.srcFiles = fs.srcFiles := by
  unfold main
  rw [foldl_step_srcFiles]

theorem main_dstDirExists (fs : FS) : (main fs).1.dstDirExists = true := by
  unfold main
  rw [foldl_step_dstDirExists]

theorem main_out (fs : FS) : (main fs).2 = FILES.map ( notice fs.srcFiles) := by
  unfold main
  rw [foldl_step_out]
  rfl

theorem main_dstFiles_mem (fs : FS) (n : String) (h : n ∈ FILES) :
    (main fs).1.dstFiles n =
      match fs.srcFiles n with
      | some c => some (rewriteLinks n (fake_translate c))
      | none => fs.dstFiles n := by
  unfold main
  exact foldl_step_dstFiles_mem FILES n _ h

theorem main_dstFiles_notMem (fs : FS) (n : String) (h : n ∉ FILES) :
    (main fs).1.dstFiles n = fs.dstFiles n := by
  unfold main
  exact foldl_step_dstFiles_notMem FILES n _ h

theorem main_dstFiles_some (fs : FS) (n : String) (h : n ∈ FILES) (c : String)
    (hc : fs.srcFiles n = some c) :
    (main fs).1.dstFiles n = some (fake_translate c) := by
  rw [main_dstFiles_mem fs n h, hc]
  show some (rewriteLinks n (fake_translate c)) = some (fake_translate c)
  rw [rewriteLinks_id]

theorem main_dstFiles_none (fs : FS) (n : String) (h : n ∈ FILES)
    (hc : fs.srcFiles n = none) :
    (main fs).1.dstFiles n = fs.dstFiles n := by
  rw [main_dstFiles_mem fs n h, hc]

/-- Two filesystem states with equal fields are equal. -/
theorem FS.eq_of_fields {a b : FS} (h1 : a.srcFiles = b.srcFiles)
    (h2 : a.dstFiles = b.dstFiles) (h3 : a.dstDirExists = b.dstDirExists) :
    a = b := by
  cases a
  cases b
  congr 1

/-- A concrete filesystem state: the source directory holds exactly
`FAQ.md` with content `"# FAQ\n"`; `en/` is empty and absent. -/
def fs0 : FS where
  srcFiles := fun n => if n = "FAQ.md" then some "# FAQ\n" else none
  dstFiles := fun _ => none
  dstDirExists := false

/-- A concrete filesystem state with an empty source directory. -/
def fs1 : FS where
  srcFiles := fun _ => none
  dstFiles := fun _ => none
  dstDirExists := false

/-! ### The claims -/

/-- C1: for every filename in `FILES` whose source file exists in the
source directory, after `main` runs the destination file `en/<filename>`
exists and its content starts with the marker line. -/
theorem C1_existing_translated (fs : FS) (fname : String) (h : fname ∈ FILES)
    (c : String) (hc : fs.srcFiles fname = some c) :
    ∃ d : String, (main fs).1.dstFiles fname = some d ∧ marker.data <+: d.data := by
  refine ⟨fake_translate c, main_dstFiles_some fs fname h c hc, ?_⟩
  show marker.data <+: (marker ++ c).data
  rw [String.data_append]
  exact List.prefix_append _ _

theorem C1_existing_translated_witness :
    ("FAQ.md" ∈ FILES ∧ fs0.srcFiles "FAQ.md" = some "# FAQ\n") ∧
      ∃ d : String, (main fs0).1.dstFiles "FAQ.md" = some d ∧ marker.data <+: d.data :=
  ⟨⟨by decide, by decide⟩,
    C1_existing_translated fs0 "FAQ.md" (by decide) "# FAQ\n" (by decide)⟩

/-- C2: if the source directory contains `FAQ.md` with content exactly
`"# FAQ\n"`, then after `main` the destination file `en/FAQ.md` has
content exactly the marker line followed by `"# FAQ\n"`. -/
theorem C2_faq_example (fs : FS) (hc : fs.srcFiles "FAQ.md" = some "# FAQ\n") :
    (main fs).1.dstFiles "FAQ.md" =
      some "<!-- TRANSLATED TO ENGLISH (replace with real translation) -->\n# FAQ\n" := by
  rw [main_dstFiles_some fs "FAQ.md" (by decide) "# FAQ\n" hc]
  rfl

theorem C2_faq_example_witness :
    fs0.srcFiles "FAQ.md" = some "# FAQ\n" ∧
      (main fs0).1.dstFiles "FAQ.md" =
        some "<!-- TRANSLATED TO ENGLISH (replace with real translation) -->\n# FAQ\n" :=
  ⟨by decide, C2_faq_example fs0 (by decide)⟩

/-- C3: for every filename in `FILES` whose source file does not exist,
`main` leaves the destination entry for that name unchanged (in
particular it creates no destination file) and prints the notice
`"Source file missing: <filename>"`. -/
theorem C3_missing_skipped (fs : FS) (fname : String) (h : fname ∈ FILES)
    (hc : fs.srcFiles fname = none) :
    (main fs).1.dstFiles fname = fs.dstFiles fname ∧
      ("Source file missing: " ++ fname) ∈ (main fs).2 := by
  refine ⟨main_dstFiles_none fs fname h hc, ?_⟩
  rw [main_out]
  refine List.mem_map.mpr ⟨fname, h, ?_⟩
  unfold notice
  rw [hc]

theorem C3_missing_skipped_witness :
    ("OVERVIEW.md" ∈ FILES ∧ fs1.srcFiles "OVERVIEW.md" = none) ∧
      ((main fs1).1.dstFiles "OVERVIEW.md" = fs1.dstFiles "OVERVIEW.md" ∧
        ("Source file missing: " ++ "OVERVIEW.md") ∈ (main fs1).2) :=
  ⟨⟨by decide, by decide⟩,
    C3_missing_skipped fs1 "OVERVIEW.md" (by decide) (by decide)⟩

/-- C4: the link-rewriting pass is a no-op on every string, so every
destination file written by `main` holds exactly `fake_translate` of the
source content. -/
theorem C4_rewrite_noop (fs : FS) (fname s c : String) (h : fname ∈ FILES)
    (hc : fs.srcFiles fname = some c) :
    rewriteLinks fname s = s ∧ (main fs).1.dstFiles fname = some (fake_translate c) :=
  ⟨rewriteLinks_id fname s, main_dstFiles_some fs fname h c hc⟩

theorem C4_rewrite_noop_witness :
    ("FAQ.md" ∈ FILES ∧ fs0.srcFiles "FAQ.md" = some "# FAQ\n") ∧
      (rewriteLinks "FAQ.md" "see ./OVERVIEW.md and ./FAQ.md" =
          "see ./OVERVIEW.md and ./FAQ.md" ∧
        (main fs0).1.dstFiles "FAQ.md" = some (fake_translate "# FAQ\n")) :=
  ⟨⟨by decide, by decide⟩,
    C4_rewrite_noop fs0 "FAQ.md" "see ./OVERVIEW.md and ./FAQ.md" "# FAQ\n"
      (by decide) (by decide)⟩

/-- C5: `main` is idempotent on the filesystem: running it a second time
on the state it produced yields the same state (in particular no
destination file gets the marker line prepended twice). -/
theorem C5_idempotent (fs : FS) : (main ((main fs).1)).1 = (main fs).1 := by
  apply FS.eq_of_fields
  · rw [main_srcFiles, main_srcFiles]
  · funext n
    by_cases hn : n ∈ FILES
    · rw [main_dstFiles_mem ((main fs).1) n hn, main_dstFiles_mem fs n hn, main_srcFiles]
      cases fs.srcFiles n <;> rfl
    · exact main_dstFiles_notMem ((main fs).1) n hn
  · rw [main_dstDirExists, main_dstDirExists]

/-- C6: for every existing source file, the destination file under the
same name holds exactly the one-line marker followed by the unmodified
original content. -/
theorem C6_marker_prepended (fs : FS) (fname : String) (h : fname ∈ FILES)
    (c : String) (hc : fs.srcFiles fname = some c) :
    (main fs).1.dstFiles fname = some (marker ++ c) := by
  rw [main_dstFiles_some fs fname h c hc]
  rfl

theorem C6_marker_prepended_witness :
    ("FAQ.md" ∈ FILES ∧ fs0.srcFiles "FAQ.md" = some "# FAQ\n") ∧
      (main fs0).1.dstFiles "FAQ.md" = some (marker ++ "# FAQ\n") :=
  ⟨⟨by decide, by decide⟩,
    C6_marker_prepended fs0 "FAQ.md" (by decide) "# FAQ\n" (by decide)⟩

/-- C7: starting from any state where the destination directory `en/` is
absent, after `main` runs the directory exists; moreover `main` only
reads the source directory and never modifies it. -/
theorem C7_creates_dst_dir (fs : FS) (h : fs.dstDirExists = false) :
    (main fs).1.dstDirExists = true ∧ (main fs).1.srcFiles = fs.srcFiles :=
  ⟨main_dstDirExists fs, main_srcFiles fs⟩

theorem C7_creates_dst_dir_witness :
    fs0.dstDirExists = false ∧
      ((main fs0).1.dstDirExists = true ∧ (main fs0).1.srcFiles = fs0.srcFiles) :=
  ⟨by decide, C7_creates_dst_dir fs0 (by decide)⟩

/-- C8: `FILES` is a hard-coded list of exactly nine filenames, and the
printed notices of `main` are exactly one notice per filename, in the
order of `FILES` (either the translated notice or the missing notice,
according to whether the source file exists). -/
theorem C8_nine_files_in_order (fs : FS) :
    FILES.length = 9 ∧ (main fs).2 = FILES.map ( notice fs.srcFiles) :=
  ⟨rfl, main_out fs⟩

/-- C9: frame property: `main` never changes the source directory and
never writes a destination entry outside the names of `FILES`. -/
theorem C9_frame (fs : FS) :
    (main fs).1.srcFiles = fs.srcFiles ∧
      ∀ n : String, n ∉ FILES → (main fs).1.dstFiles n = fs.dstFiles n :=
  ⟨main_srcFiles fs, fun n hn => main_dstFiles_notMem fs n hn⟩

theorem C9_frame_witness :
    ("README.md" ∉ FILES) ∧
      ((main fs0).1.srcFiles = fs0.srcFiles ∧
        (main fs0).1.dstFiles "README.md" = fs0.dstFiles "README.md") :=
  ⟨by decide, (C9_frame fs0).1, (C9_frame fs0).2 "README.md" (by decide)⟩

/-- C10: determinism: the destination files and the printed lines after
`main` depend only on the initial source and destination file maps; two
runs from states with identical file contents produce identical
destination contents and identical printed lines. -/
theorem C10_deterministic (fsa fsb : FS) (hsrc : fsa.srcFiles = fsb.srcFiles)
    (hdst : fsa.dstFiles = fsb.dstFiles) :
    (main fsa).1.dstFiles = (main fsb).1.dstFiles ∧ (main fsa).2 = (main fsb).2 := by
  constructor
  · funext n
    by_cases hn : n ∈ FILES
    · rw [main_dstFiles_mem fsa n hn, main_dstFiles_mem fsb n hn, hsrc, hdst]
    · rw [main_dstFiles_notMem fsa n hn, main_dstFiles_notMem fsb n hn, hdst]
  · rw [main_out, main_out, hsrc]

theorem C10_deterministic_witness :
    (fs0.srcFiles = fs0.srcFiles ∧ fs0.dstFiles = fs0.dstFiles) ∧
      ((main fs0).1.dstFiles = (main fs0).1.dstFiles ∧ (main fs0).2 = (main fs0).2) :=
  ⟨⟨rfl, rfl⟩, C10_deterministic fs0 fs0 rfl rfl⟩

end TranslateDocs
